import Mathlib

/-!
Shallow embedding of the artform upload pipeline
(`src/models.py`, `src/database.py`, `src/uploader.py`, `src/csv_parser.py`)
and proofs about the claims of its specification.

Modelling conventions:
* Python strings are Lean `String`; `str.strip()` is `pyStrip`.
* Python dynamic attribute values are the inductive `Value`
  (floats appear only as carried data, modelled by `ℚ`).
* A Python dict with string keys is a function `String → Option Value`.
* A Python set of strings is a duplicate-free `List String` used only
  through membership, so the unspecified iteration order of a Python
  set never matters.
* Exceptions are `Except` / `Option` values.
* Wall-clock time and log output are not modelled (no claim depends on them).
-/

/-- Python whitespace characters stripped by `str.strip()`. -/
def pyIsSpace (c : Char) : Bool :=
  c = ' ' || c = '\t' || c = '\n' || c = '\r' || c = '\x0b' || c = '\x0c'

/-- Embeds Python `str.strip()`: drop leading and trailing whitespace. -/
def pyStrip (s : String) : String :=
  ⟨(s.data.dropWhile pyIsSpace).reverse.dropWhile pyIsSpace |>.reverse⟩

/-- Dynamic Python values that can sit in an attribute of a record or in a
Firestore document.  `timestamp` is the `firestore.SERVER_TIMESTAMP` sentinel;
`setOf` is a Python `set` of strings (it appears only when `asdict` dumps the
`_fields_to_update` bookkeeping field). -/
inductive Value where
  | str (s : String)
  | int (n : Int)
  | float (q : ℚ)
  | list (l : List String)
  | timestamp
  | setOf (l : List String)
deriving DecidableEq, Repr

/-- The instance data fields of the `ArtformData` dataclass
(`src/models.py` lines 21-35), in declaration order. -/
def artformFieldNames : List String :=
  ["name", "slug", "description", "origin_region", "heritage_level",
   "thumbnail_url", "banner_image_url", "category", "materials_used",
   "colours_used", "related_art_form_ids", "artist_ids",
   "total_value_sold", "artist_count", "total_unit_sold"]

/-- Default value of each `ArtformData` field (`src/models.py` lines 21-35):
empty string, empty list, `0.0` or `0` according to the declared type. -/
def artformDefault : String → Value
  | "origin_region" => .list []
  | "materials_used" => .list []
  | "colours_used" => .list []
  | "related_art_form_ids" => .list []
  | "artist_ids" => .list []
  | "total_value_sold" => .float 0
  | "artist_count" => .int 0
  | "total_unit_sold" => .int 0
  | _ => .str ""

/-- Embeds the `ArtformData` dataclass: a dynamic attribute map over the
declared data fields together with the `_fields_to_update` set
(`fieldsToUpdate` here).  `hasattrData` below answers `hasattr` restricted to
the data fields — the fragment the data-flow theorems need.  Python's
`hasattr` is also true of `_fields_to_update`, `_field_types`, and method
names; that complete dynamic-attribute semantics of `set_field_value` is
modelled separately on the `PyArtform` view further down. -/
structure ArtformData where
  attrs : String → Value
  fieldsToUpdate : List String

/-- Membership in the declared instance data fields: the fragment of
`hasattr(self, f)` used where only data-field names are at stake.  Python's
`hasattr` is true on more names (`_fields_to_update`, `_field_types`,
methods, inherited dunders); the complete semantics is `pyHasattr` on the
`PyArtform` view below. -/
def hasattrData (f : String) : Bool := f ∈ artformFieldNames

/-- Add an element to a Python set modelled as a duplicate-free list. -/
def setAdd (l : List String) (f : String) : List String :=
  if f ∈ l then l else l ++ [f]

/-- Embeds `field_name.startswith('_')`: true exactly when the name's first
character is an underscore. -/
def pyStartsUnderscore (f : String) : Bool :=
  match f.data with
  | [] => false
  | c :: _ => c = '_'

/-- The record's key, as read by `artform.slug` (a string in every state the
pipeline produces). -/
def ArtformData.slug (r : ArtformData) : String :=
  match r.attrs "slug" with
  | .str s => s
  | _ => ""

/-- `ArtformData.set_field_value` (`src/models.py` lines 57-61) restricted
to data-field names, where `hasattr` agrees with `hasattrData`: set the
attribute and mark it for update, otherwise do nothing.  The complete
dynamic semantics — `hasattr` is also true at private and method names —
is `pySetFieldValue` on the `PyArtform` view. -/
def ArtformData.set_field_value (r : ArtformData) (f : String) (v : Value) :
    ArtformData :=
  if hasattrData f then
    { attrs := Function.update r.attrs f v,
      fieldsToUpdate := setAdd r.fieldsToUpdate f }
  else r

/-- Embeds `ArtformData.to_firestore_dict` (`src/models.py` lines 63-78).
With an empty `_fields_to_update` it returns `asdict(self)` (every dataclass
field, the private `_fields_to_update` included); otherwise only the marked
fields that exist on the record and are not private. -/
def ArtformData.to_firestore_dict (r : ArtformData) : String → Option Value :=
  if r.fieldsToUpdate = [] then
    fun f =>
      if f ∈ artformFieldNames then some (r.attrs f)
      else if f = "_fields_to_update" then some (.setOf r.fieldsToUpdate)
      else none
  else
    fun f =>
      if f ∈ r.fieldsToUpdate ∧ hasattrData f ∧ ¬ pyStartsUnderscore f then
        some (r.attrs f)
      else none

/-- Embeds `ArtformData.is_valid` (`src/models.py` lines 80-82):
`bool(self.slug and self.slug.strip())`. -/
def ArtformData.is_valid (r : ArtformData) : Bool :=
  !r.slug.isEmpty && !(pyStrip r.slug).isEmpty

/-- A fresh `ArtformData` with a given slug and every other field at its
default, before `__post_init__` validation. -/
def artformBase (slug : String) : ArtformData :=
  { attrs := Function.update artformDefault "slug" (.str slug),
    fieldsToUpdate := [] }

/-- Embeds `ArtformData(slug=...)` construction followed by `__post_init__`
(`src/models.py` lines 52-55): raises `ValueError` when the slug is truthy but
strips to the empty string.  Other constructor arguments keep their defaults
and play no part in validation. -/
def ArtformData.make (slug : String) : Except String ArtformData :=
  if slug ≠ "" ∧ pyStrip slug = "" then .error "Slug cannot be empty"
  else .ok (artformBase slug)

/-- Embeds `ProcessResult` (`src/models.py` lines 88-97).  The
`processing_time` field carries wall-clock time, which is not modelled. -/
structure ProcessResult where
  doc_id : String
  success : Bool
  error_message : Option String := none
  row_number : Nat := 0
  is_new_document : Bool := false
  fields_updated : List String := []
deriving DecidableEq, Repr

/-- A Firestore document: a dict from field names to values. -/
def Doc : Type := String → Option Value

/-- The Firestore collection touched by the uploader: a map from document id
(the record's slug) to the stored document, `none` when absent. -/
def Store : Type := String → Option Doc

/-- `doc_ref.set(data, merge=True)` semantics on one document: fields present
in `data` overwrite, all other stored fields survive. -/
def mergeDoc (old newData : Doc) : Doc :=
  fun f => match newData f with
  | some v => some v
  | none => old f

/-- Upsert `data` into the collection at `key` with `merge=True`. -/
def storeSet (store : Store) (key : String) (data : Doc) : Store :=
  fun k =>
    if k = key then
      some (mergeDoc (match store key with | some d => d | none => fun _ => none) data)
    else store k

/-- The document data assembled by `upload_document` (`src/database.py`
lines 60-67): the record's `to_firestore_dict`, with `updated_at` set to the
server timestamp, and `created_at` set to the server timestamp only when the
document is new. -/
def docDataFor (r : ArtformData) (isNew : Bool) : Doc :=
  fun f =>
    if f = "updated_at" then some .timestamp
    else if f = "created_at" ∧ isNew then some .timestamp
    else r.to_firestore_dict f

/-- Embeds the exception-free path of `FirestoreManager.upload_document`
(`src/database.py` lines 56-81): read existence of the document, build the
document data, merge-write it, and report success together with the
new-document flag. -/
def upload_document (store : Store) (r : ArtformData) : ProcessResult × Store :=
  let isNew := (store r.slug).isNone
  ({ doc_id := r.slug, success := true, is_new_document := isNew },
   storeSet store r.slug (docDataFor r isNew))

/-- Store-level exceptions that the body of `upload_document` can encounter.
`googleCloudError` is any `GoogleCloudError`; `other` is every exception
outside the transient classes. -/
inductive StoreExc where
  | tooManyRequests
  | serviceUnavailable
  | googleCloudError (msg : String)
  | other (msg : String)
deriving DecidableEq, Repr

/-- `str(e)` of a store exception. -/
def StoreExc.text : StoreExc → String
  | .tooManyRequests => "429 Too Many Requests"
  | .serviceUnavailable => "503 Service Unavailable"
  | .googleCloudError msg => msg
  | .other msg => msg

/-- Embeds the decorator's retry condition
`retry_if_exception_type((TooManyRequests, ServiceUnavailable,
GoogleCloudError))` (`src/database.py` line 41). -/
def isTransientExc : StoreExc → Bool
  | .tooManyRequests => true
  | .serviceUnavailable => true
  | .googleCloudError _ => true
  | .other _ => false

/-- Embeds the `try`/`except` body of `upload_document` (`src/database.py`
lines 56-93) for one attempt.  `outcome` is what the store interaction does on
this attempt: `.ok isNew` when `get` and `set` succeed (with `isNew` the
existence answer), `.error e` when any statement in the `try` block raises.
The `except Exception` branch converts every exception into a failed
`ProcessResult` whose message interpolates the slug and `str(e)`; the body
itself never lets an exception escape. -/
def uploadAttempt (outcome : Except StoreExc Bool) (r : ArtformData) :
    ProcessResult :=
  match outcome with
  | .ok isNew => { doc_id := r.slug, success := true, is_new_document := isNew }
  | .error e =>
    { doc_id := r.slug, success := false,
      error_message :=
        some ("Failed to upload document '" ++ r.slug ++ "': " ++ e.text) }

/-- One step of tenacity's attempt loop: `n` is the 0-based attempt index and
`fuel` the number of retries still allowed.  A normal return ends the loop;
an exception is retried while it satisfies the retry condition and fuel
remains.  Returns the final outcome and the 1-based number of attempts
made. -/
def tenacityGo (retryable : ε → Bool) (f : Nat → Except ε α) :
    Nat → Nat → Except ε α × Nat
  | n, 0 => (f n, n + 1)
  | n, fuel + 1 =>
    match f n with
    | .ok a => (.ok a, n + 1)
    | .error e =>
      if retryable e then tenacityGo retryable f (n + 1) fuel
      else (.error e, n + 1)

/-- Embeds the `@retry(stop=stop_after_attempt(maxAttempts), ...)` decorator:
at most `maxAttempts` calls of the wrapped function.  Backoff sleep durations
do not affect which outcome is returned and are not modelled. -/
def tenacityRetry (maxAttempts : Nat) (retryable : ε → Bool)
    (f : Nat → Except ε α) : Except ε α × Nat :=
  tenacityGo retryable f 0 (maxAttempts - 1)

/-- The decorated `upload_document` as deployed (`src/database.py`
lines 38-44): the tenacity decorator around the `try`/`except` body.
`script n` says what the store does on attempt `n`.  Because the body catches
every exception and returns a `ProcessResult`, the wrapped callable always
returns normally — hence the unconditional `Except.ok`. -/
def upload_document_with_retry (script : Nat → Except StoreExc Bool)
    (r : ArtformData) : Except StoreExc ProcessResult × Nat :=
  tenacityRetry 5 isTransientExc (fun n => Except.ok (uploadAttempt (script n) r))

/-- Embeds `UploadStats` (`src/models.py` lines 100-108).  `start_time` and
the time-derived `duration`/`rate_per_second` are not modelled. -/
structure UploadStats where
  success : Nat := 0
  errors : Nat := 0
  skipped : Nat := 0
  total_processed : Nat := 0
  new_documents : Nat := 0
  updated_documents : Nat := 0
deriving DecidableEq, Repr

/-- Embeds the `success_rate` property (`src/models.py` lines 115-120):
`0.0` when nothing was processed, otherwise
`(self.success / self.total_processed) * 100`. -/
def UploadStats.success_rate (s : UploadStats) : ℚ :=
  if s.total_processed = 0 then 0
  else ((s.success : ℚ) / (s.total_processed : ℚ)) * 100

/-- The statistics mutations performed during a run of `upload_artforms`
(`src/uploader.py`): a skip increment for an invalid or unparsable row
(lines 46-55), `_update_stats` folding a `ProcessResult` (lines 104-118), and
the dispatcher's task-exception branch (lines 98-102). -/
inductive StatsEvent where
  | skip
  | outcome (success isNew : Bool)
  | taskError
deriving DecidableEq, Repr

/-- Effect of one mutation on the statistics.  `outcome` follows
`_update_stats` exactly; `taskError` follows the `except` branch of
`_process_batch`. -/
def applyEvent (s : UploadStats) : StatsEvent → UploadStats
  | .skip => { s with skipped := s.skipped + 1 }
  | .outcome true isNew =>
    { s with
      success := s.success + 1,
      new_documents := if isNew then s.new_documents + 1 else s.new_documents,
      updated_documents := if isNew then s.updated_documents else s.updated_documents + 1,
      total_processed := s.total_processed + 1 }
  | .outcome false _ =>
    { s with errors := s.errors + 1, total_processed := s.total_processed + 1 }
  | .taskError =>
    { s with errors := s.errors + 1, total_processed := s.total_processed + 1 }

/-- The statistics reached from a fresh `UploadStats` after a list of
mutations (the lock in the source serialises them into such a list). -/
def runStats (evs : List StatsEvent) : UploadStats :=
  evs.foldl applyEvent {}

/-- Embeds the batch-accumulation loop of `ArtformUploader.upload_artforms`
(`src/uploader.py` lines 43-69) over a finite source of `(row_num, artform)`
pairs, carrying the current buffer.  Returns the batches handed to
`_process_batch` in order, and the number of skip increments.  `none` is the
invalid-marker yielded by the parser for unparsable rows. -/
def upload_artforms_go (B : Nat) :
    List (Nat × Option ArtformData) → List (Nat × ArtformData) →
    List (List (Nat × ArtformData)) × Nat
  | [], buf => (match buf with | [] => [] | _ => [buf], 0)
  | (_, none) :: rest, buf =>
    let r := upload_artforms_go B rest buf
    (r.1, r.2 + 1)
  | (rn, some a) :: rest, buf =>
    if a.is_valid then
      let buf2 := buf ++ [(rn, a)]
      if B ≤ buf2.length then
        let r := upload_artforms_go B rest []
        (buf2 :: r.1, r.2)
      else upload_artforms_go B rest buf2
    else
      let r := upload_artforms_go B rest buf
      (r.1, r.2 + 1)

/-- The loop of `upload_artforms` started with an empty buffer. -/
def upload_artforms (B : Nat) (rows : List (Nat × Option ArtformData)) :
    List (List (Nat × ArtformData)) × Nat :=
  upload_artforms_go B rows []

/-- The valid records of the source, in encounter order with their row
numbers. -/
def validRows (rows : List (Nat × Option ArtformData)) :
    List (Nat × ArtformData) :=
  rows.filterMap fun p =>
    match p.2 with
    | some a => if a.is_valid then some (p.1, a) else none
    | none => none

/-- One iteration of the column loop of `CSVParser._create_artform_from_row`
(`src/csv_parser.py` lines 61-77): skip empty headers and values, strip both,
convert the value (`_convert_value`, an external coercion helper abstracted as
`conv`), and set the field when the record has that attribute. -/
def processColumn (conv : String → String → Value) (acc : ArtformData)
    (hv : String × String) : ArtformData :=
  if hv.1 = "" then acc
  else if (if hv.2 = "" then "" else pyStrip hv.2) = "" then acc
  else if hasattrData (pyStrip hv.1) then
    acc.set_field_value (pyStrip hv.1)
      (conv (pyStrip hv.1) (if hv.2 = "" then "" else pyStrip hv.2))
  else acc

/-- Embeds `CSVParser._create_artform_from_row` (`src/csv_parser.py`
lines 56-84): start from a default record, run the column loop over the row,
and return `None` when the resulting slug is empty. -/
def createArtformFromRow (conv : String → String → Value)
    (row : List (String × String)) : Option ArtformData :=
  let r := row.foldl (processColumn conv) (artformBase "")
  if r.slug = "" then none else some r

/-- The store with no documents. -/
def emptyStore : Store := fun _ => none

/-- Scenario record for the two-upload partial-update test: key `"a"`,
touched field `name = "X"`. -/
def scenarioRecord1 : ArtformData :=
  (artformBase "a").set_field_value "name" (.str "X")

/-- Scenario record for the two-upload partial-update test: key `"a"`,
touched numeric field `total_value_sold = 5` (the record type has no `price`
attribute, so the specification's `price` is instantiated at its numeric
field `total_value_sold`). -/
def scenarioRecord2 : ArtformData :=
  (artformBase "a").set_field_value "total_value_sold" (.float 5)

/-- Source rows exercising the batching theorem: three valid records, one
invalid marker, one whitespace-slug record, against batch size 2. -/
def batchSampleRows : List (Nat × Option ArtformData) :=
  [(2, some (artformBase "a")), (3, none), (4, some (artformBase "b")),
   (5, some (artformBase " ")), (6, some (artformBase "c"))]

/-- A Python-object view of an `ArtformData` instance, faithful to the
dynamic attribute semantics that `set_field_value` relies on: `dict` is the
instance `__dict__` (`some` exactly at the names that are instance
attributes), and `classAttrs` answers attribute lookup on the class chain
(`_field_types`, the methods, and the inherited dunder names).  `classAttrs`
is carried as part of the state, so no fragile enumeration of inherited names
is needed: the general theorems hold for every class-attribute oracle, the
real class being one instance. -/
structure PyArtform where
  dict : String → Option Value
  classAttrs : String → Bool

/-- Embeds `hasattr(self, f)` in full: true when `f` is an instance attribute
or resolvable on the class chain. -/
def pyHasattr (r : PyArtform) (f : String) : Bool :=
  (r.dict f).isSome || r.classAttrs f

/-- Embeds `setattr(self, f, v)`: bind `f` in the instance `__dict__`. -/
def pySetattr (r : PyArtform) (f : String) (v : Value) : PyArtform :=
  { r with dict := Function.update r.dict f (some v) }

/-- Embeds `ArtformData.set_field_value` (`src/models.py` lines 57-61) on the
Python-object view with the complete `hasattr` semantics: when
`hasattr(self, field_name)` holds, run `setattr(self, field_name, value)` and
then `self._fields_to_update.add(field_name)`.  The `.add` call only succeeds
when the object bound to `_fields_to_update` after the `setattr` is a set —
so binding `_fields_to_update` itself to a non-set value makes the `.add`
raise `AttributeError`, returned here as `.error`. -/
def pySetFieldValue (r : PyArtform) (f : String) (v : Value) :
    Except String PyArtform :=
  if pyHasattr r f then
    match (pySetattr r f v).dict "_fields_to_update" with
    | some (.setOf l) =>
      .ok { pySetattr r f v with
            dict := Function.update (pySetattr r f v).dict "_fields_to_update"
              (some (.setOf (setAdd l f))) }
    | _ => .error "AttributeError"
  else .ok r

/-- The class-level attribute names declared in `src/models.py`: the
`_field_types` mapping (line 41) and the methods (lines 52-86).  Python also
resolves inherited object/dataclass dunder names on the class chain;
`pyArtformBase` lists only the declared ones, and every general theorem
quantifies over the oracle, so the inherited names never need enumerating. -/
def artformClassAttrNames : List String :=
  ["_field_types", "__post_init__", "set_field_value", "to_firestore_dict",
   "is_valid", "get_fields_to_update"]

/-- The Python-object view of a fresh `ArtformData(slug=s)`: the instance
`__dict__` holds the 15 data fields at their defaults (with the given slug)
and `_fields_to_update` bound to the empty set. -/
def pyArtformBase (slug : String) : PyArtform :=
  { dict := fun f =>
      if f = "slug" then some (.str slug)
      else if f = "_fields_to_update" then some (.setOf [])
      else if f ∈ artformFieldNames then some (artformDefault f)
      else none,
    classAttrs := fun f => f ∈ artformClassAttrNames }

/-- Recognises the skip mutation among the statistics events. -/
def isSkipEvent : StatsEvent → Bool
  | .skip => true
  | _ => false

-- quick sanity checks of the embedding
example : pyStrip "  a b\t " = "a b" := by decide
example : pyStrip "   " = "" := by decide
example : (artformBase "a").is_valid = true := by decide
example : (artformBase "").is_valid = false := by decide
example : (artformBase " ").is_valid = false := by decide
example : ArtformData.make " " = .error "Slug cannot be empty" := rfl

section Helpers

lemma mem_setAdd {l : List String} {f g : String} :
    g ∈ setAdd l f ↔ g = f ∨ g ∈ l := by
  unfold setAdd
  split
  · rename_i h
    constructor
    · exact Or.inr
    · rintro (rfl | hg)
      · exact h
      · exact hg
  · simp [List.mem_append, or_comm]

lemma setAdd_ne_nil (l : List String) (f : String) : setAdd l f ≠ [] := by
  unfold setAdd
  split
  · rename_i h
    intro hnil
    rw [hnil] at h
    simp at h
  · simp

lemma set_field_value_attrs (r : ArtformData) (f : String) (v : Value) :
    (r.set_field_value f v).attrs
      = if hasattrData f then Function.update r.attrs f v else r.attrs := by
  unfold ArtformData.set_field_value
  split <;> simp_all

lemma set_field_value_marks (r : ArtformData) (f : String) (v : Value) :
    (r.set_field_value f v).fieldsToUpdate
      = if hasattrData f then setAdd r.fieldsToUpdate f else r.fieldsToUpdate := by
  unfold ArtformData.set_field_value
  split <;> simp_all

lemma statsRun_aux (evs : List StatsEvent) (s : UploadStats) :
    (evs.foldl applyEvent s).success + (evs.foldl applyEvent s).errors
        = s.success + s.errors + evs.countP (fun e => !isSkipEvent e)
    ∧ (evs.foldl applyEvent s).total_processed
        = s.total_processed + evs.countP (fun e => !isSkipEvent e)
    ∧ (evs.foldl applyEvent s).skipped
        = s.skipped + evs.countP (fun e => isSkipEvent e) := by
  induction evs generalizing s with
  | nil => simp
  | cons e rest ih =>
    obtain ⟨h1, h2, h3⟩ := ih (applyEvent s e)
    rw [List.foldl_cons]
    refine ⟨?_, ?_, ?_⟩ <;> rw [List.countP_cons] <;>
      cases e with
      | skip =>
        simp only [applyEvent, isSkipEvent] at h1 h2 h3 ⊢
        simp at h1 h2 h3 ⊢
        omega
      | outcome ok isNew =>
        cases ok <;>
          · simp only [applyEvent, isSkipEvent] at h1 h2 h3 ⊢
            simp at h1 h2 h3 ⊢
            omega
      | taskError =>
        simp only [applyEvent, isSkipEvent] at h1 h2 h3 ⊢
        simp at h1 h2 h3 ⊢
        omega

end Helpers

/-- C4: in every statistics state reachable through the run's mutations
(skip increments, `_update_stats`, and the dispatcher's task-exception
handler), `success + errors = total_processed`; `skipped` counts exactly the
skip mutations and `total_processed` counts exactly the non-skip ones, so
skips are never included in `total_processed`. -/
theorem stats_invariant (evs : List StatsEvent) :
    (runStats evs).success + (runStats evs).errors = (runStats evs).total_processed
    ∧ (runStats evs).skipped = evs.countP (fun e => isSkipEvent e)
    ∧ (runStats evs).total_processed = evs.countP (fun e => !isSkipEvent e) := by
  have h := statsRun_aux evs {}
  unfold runStats
  refine ⟨?_, ?_, ?_⟩ <;> simp_all

/-- C8 counterexample: with 1 success out of 2 processed, `success_rate` is
`50`, not the ratio `1 / 2` the claim states — the code returns a
percentage. -/
theorem success_rate_not_ratio :
    ({ success := 1, errors := 1, total_processed := 2 } : UploadStats).success_rate
      ≠ 1 / 2 := by
  norm_num [UploadStats.success_rate]

/-- C8 (amended): `success_rate` is `0` when `total_processed = 0`, and
otherwise equals `success / total_processed * 100`, i.e. the success ratio
expressed as a percentage. -/
theorem success_rate_spec (s : UploadStats) :
    (s.total_processed = 0 → s.success_rate = 0)
    ∧ (s.total_processed ≠ 0 →
        s.success_rate = (s.success : ℚ) * 100 / (s.total_processed : ℚ)) := by
  constructor <;> intro h
  · simp [UploadStats.success_rate, h]
  · rw [UploadStats.success_rate, if_neg h]
    ring

/-- Witness for `success_rate_spec` at 1 success out of 2 processed. -/
theorem success_rate_spec_witness :
    ({ success := 1, errors := 1, total_processed := 2 } : UploadStats).total_processed ≠ 0
    ∧ ({ success := 1, errors := 1, total_processed := 2 } : UploadStats).success_rate
        = (({ success := 1, errors := 1, total_processed := 2 } : UploadStats).success : ℚ) * 100
          / (({ success := 1, errors := 1, total_processed := 2 } : UploadStats).total_processed : ℚ) :=
  ⟨by norm_num, (success_rate_spec _).2 (by norm_num)⟩

/-- C9 counterexample: `_fields_to_update` is an existing attribute of every
record (`hasattr` is true), yet `set_field_value` there does not set-and-mark
as the claim states: the `setattr` clobbers the bookkeeping set with the
integer 5 and the following `self._fields_to_update.add(field_name)` raises
`AttributeError`, so no updated record is ever produced. -/
theorem set_field_value_add_raises :
    pyHasattr (pyArtformBase "a") "_fields_to_update" = true
    ∧ pySetFieldValue (pyArtformBase "a") "_fields_to_update" (.int 5)
        = .error "AttributeError"
    ∧ ∀ r2, pySetFieldValue (pyArtformBase "a") "_fields_to_update" (.int 5)
        ≠ .ok r2 := by
  refine ⟨by decide, rfl, ?_⟩
  intro r2 h
  rw [show pySetFieldValue (pyArtformBase "a") "_fields_to_update" (.int 5)
      = .error "AttributeError" from rfl] at h
  exact Except.noConfusion h

/-- C9 (amended): on the Python-object view with complete `hasattr`
semantics, `set_field_value` on a name that is not an existing attribute is a
silent no-op leaving the record entirely unchanged; on an existing attribute
name other than the private `_fields_to_update` bookkeeping field — whose own
entry holds a set, as in every record the program constructs — it returns
normally, binds that attribute to the value, inserts the name into the
touched-field set, and changes nothing else; on `_fields_to_update` itself
with a non-set value the `.add` raises `AttributeError`. -/
theorem pySetFieldValue_spec (r : PyArtform) (f : String) (v : Value)
    (l : List String) :
    (pyHasattr r f = false → pySetFieldValue r f v = .ok r)
    ∧ (r.dict "_fields_to_update" = some (.setOf l) → pyHasattr r f = true →
        f ≠ "_fields_to_update" →
        ∃ r2, pySetFieldValue r f v = .ok r2
          ∧ r2.dict f = some v
          ∧ r2.dict "_fields_to_update" = some (.setOf (setAdd l f))
          ∧ f ∈ setAdd l f
          ∧ (∀ g, g ≠ f → g ≠ "_fields_to_update" → r2.dict g = r.dict g)
          ∧ r2.classAttrs = r.classAttrs)
    ∧ (r.dict "_fields_to_update" = some (.setOf l) →
        f = "_fields_to_update" → (∀ s, v ≠ .setOf s) →
        pySetFieldValue r f v = .error "AttributeError") := by
  refine ⟨?_, ?_, ?_⟩
  · intro h
    unfold pySetFieldValue
    rw [if_neg (by simp [h])]
  · intro hset hattr hne
    unfold pySetFieldValue
    rw [if_pos hattr]
    have hd : (pySetattr r f v).dict "_fields_to_update" = some (.setOf l) := by
      simp only [pySetattr]
      rw [Function.update_noteq (Ne.symm hne)]
      exact hset
    rw [hd]
    refine ⟨_, rfl, ?_, ?_, ?_, ?_, rfl⟩
    · show Function.update (Function.update r.dict f (some v)) "_fields_to_update"
          (some (Value.setOf (setAdd l f))) f = some v
      rw [Function.update_noteq hne, Function.update_same]
    · show Function.update (Function.update r.dict f (some v)) "_fields_to_update"
          (some (Value.setOf (setAdd l f))) "_fields_to_update"
          = some (Value.setOf (setAdd l f))
      rw [Function.update_same]
    · exact mem_setAdd.mpr (Or.inl rfl)
    · intro g hgf hgp
      show Function.update (Function.update r.dict f (some v)) "_fields_to_update"
          (some (Value.setOf (setAdd l f))) g = r.dict g
      rw [Function.update_noteq hgp, Function.update_noteq hgf]
  · intro hset hf hv
    subst hf
    unfold pySetFieldValue
    rw [if_pos (by simp [pyHasattr, hset])]
    have hd : (pySetattr r "_fields_to_update" v).dict "_fields_to_update"
        = some v := by
      simp [pySetattr]
    rw [hd]
    rcases v with s | n | q | lv | _ | sv
    · rfl
    · rfl
    · rfl
    · rfl
    · rfl
    · exact absurd rfl (hv sv)

/-- Witness for `pySetFieldValue_spec` on a fresh record: `"price"` is not an
attribute and is silently ignored; `"name"` is an attribute, is set and
marked. -/
theorem pySetFieldValue_spec_witness :
    (pyHasattr (pyArtformBase "a") "price" = false
      ∧ pySetFieldValue (pyArtformBase "a") "price" (.int 5)
          = .ok (pyArtformBase "a"))
    ∧ ((pyArtformBase "a").dict "_fields_to_update" = some (.setOf [])
      ∧ pyHasattr (pyArtformBase "a") "name" = true
      ∧ "name" ≠ "_fields_to_update"
      ∧ ∃ r2, pySetFieldValue (pyArtformBase "a") "name" (.str "X") = .ok r2
          ∧ r2.dict "name" = some (.str "X")
          ∧ r2.dict "_fields_to_update" = some (.setOf (setAdd [] "name"))) := by
  refine ⟨⟨by decide, (pySetFieldValue_spec _ _ _ []).1 (by decide)⟩,
    by decide, by decide, by decide, ?_⟩
  obtain ⟨r2, h1, h2, h3, -, -, -⟩ :=
    (pySetFieldValue_spec (pyArtformBase "a") "name" (.str "X") []).2.1
      (by decide) (by decide) (by decide)
  exact ⟨r2, h1, h2, h3⟩

/-- C10: construction raises `ValueError` exactly when the supplied slug is
non-empty but strips to the empty string; construction with the default empty
slug succeeds and the resulting record is invalid. -/
theorem post_init_spec (s : String) :
    ((∃ e, ArtformData.make s = .error e) ↔ (s ≠ "" ∧ pyStrip s = ""))
    ∧ (∃ r, ArtformData.make "" = Except.ok r ∧ r.is_valid = false) := by
  constructor
  · constructor
    · rintro ⟨e, he⟩
      by_contra h
      rw [ArtformData.make, if_neg h] at he
      exact Except.noConfusion he
    · intro h
      exact ⟨_, by rw [ArtformData.make, if_pos h]⟩
  · exact ⟨artformBase "", by rw [ArtformData.make, if_neg (by simp)], by decide⟩

section UploadHelpers

lemma to_firestore_dict_not_field (r : ArtformData) (f : String)
    (hf : f ∉ artformFieldNames) (hpriv : f ≠ "_fields_to_update") :
    r.to_firestore_dict f = none := by
  unfold ArtformData.to_firestore_dict
  split
  · simp only
    rw [if_neg hf, if_neg hpriv]
  · simp only
    rw [if_neg]
    rintro ⟨-, hattr, -⟩
    exact hf (by simpa [hasattrData] using hattr)

lemma upload_go_valid (B : Nat) (rows : List (Nat × Option ArtformData)) :
    ∀ buf, (∀ p ∈ buf, (Prod.snd p).is_valid = true) →
      ∀ b ∈ (upload_artforms_go B rows buf).1, ∀ p ∈ b,
        (Prod.snd p).is_valid = true := by
  induction rows with
  | nil =>
    intro buf hbuf b hb
    cases buf with
    | nil => simp [upload_artforms_go] at hb
    | cons x xs =>
      simp [upload_artforms_go] at hb
      subst hb
      exact hbuf
  | cons q rest ih =>
    intro buf hbuf b hb
    obtain ⟨rn, oa⟩ := q
    cases oa with
    | none => exact ih buf hbuf b (by simpa [upload_artforms_go] using hb)
    | some a =>
      by_cases hv : a.is_valid
      · have hbuf2 : ∀ p ∈ buf ++ [(rn, a)], (Prod.snd p).is_valid = true := by
          intro p hp
          rcases List.mem_append.mp hp with hp | hp
          · exact hbuf p hp
          · rw [List.mem_singleton.mp hp]
            exact hv
        by_cases hfull : B ≤ (buf ++ [(rn, a)]).length
        · rw [upload_artforms_go] at hb
          simp only [hv, if_true, hfull, if_pos] at hb
          rcases List.mem_cons.mp hb with hb | hb
          · subst hb
            exact hbuf2
          · exact ih [] (by simp) b hb
        · rw [upload_artforms_go] at hb
          simp only [hv, if_true, hfull, if_neg, if_false] at hb
          exact ih (buf ++ [(rn, a)]) hbuf2 b hb
      · rw [upload_artforms_go] at hb
        simp only [hv] at hb
        simp at hb
        exact ih buf hbuf b hb

lemma upload_go_skipcount (B : Nat) (rows : List (Nat × Option ArtformData)) :
    ∀ buf, (upload_artforms_go B rows buf).2
      = rows.countP (fun p =>
          match p.2 with | none => true | some a => !a.is_valid) := by
  induction rows with
  | nil => intro buf; cases buf <;> simp [upload_artforms_go]
  | cons q rest ih =>
    intro buf
    obtain ⟨rn, oa⟩ := q
    cases oa with
    | none => simp [upload_artforms_go, List.countP_cons, ih]
    | some a =>
      by_cases hv : a.is_valid
      · rw [upload_artforms_go]
        simp only [hv, if_true]
        by_cases hfull : B ≤ (buf ++ [(rn, a)]).length
        · rw [if_pos hfull]
          simp [List.countP_cons, ih, hv]
        · rw [if_neg hfull]
          simp [List.countP_cons, ih, hv]
      · rw [upload_artforms_go]
        simp only [hv, if_false, Bool.false_eq_true]
        simp [List.countP_cons, ih, hv]

end UploadHelpers

/-- C6: when any statement of the `try` block of `upload_document` raises,
the call still returns normally with a failed `ProcessResult` whose error
message is the human-readable string interpolating the record's key and the
exception text — so the message contains both the key and the exception
text. -/
theorem upload_error_spec (e : StoreExc) (r : ArtformData) :
    (uploadAttempt (.error e) r).success = false
    ∧ (uploadAttempt (.error e) r).error_message
        = some ("Failed to upload document '" ++ r.slug ++ "': " ++ e.text)
    ∧ r.slug.data
        <:+: ("Failed to upload document '" ++ r.slug ++ "': " ++ e.text).data
    ∧ e.text.data
        <:+: ("Failed to upload document '" ++ r.slug ++ "': " ++ e.text).data := by
  refine ⟨rfl, rfl, ?_, ?_⟩
  · exact ⟨"Failed to upload document '".data, ("': " ++ e.text).data,
      by simp [String.data_append]⟩
  · exact ⟨("Failed to upload document '" ++ r.slug ++ "': ").data, [],
      by simp [String.data_append]⟩

/-- C7: every call of the exception-free path of `upload_document` succeeds;
its `is_new_document` flag is true exactly when no document with the record's
slug existed before the write; the written document data carries an
`updated_at` timestamp always and a `created_at` timestamp exactly when the
document is new. -/
theorem upload_create_update_spec (store : Store) (r : ArtformData) :
    (upload_document store r).1.success = true
    ∧ ((upload_document store r).1.is_new_document = true ↔ store r.slug = none)
    ∧ docDataFor r ((store r.slug).isNone) "updated_at" = some .timestamp
    ∧ (docDataFor r ((store r.slug).isNone) "created_at" = some .timestamp
        ↔ store r.slug = none) := by
  refine ⟨rfl, ?_, ?_, ?_⟩
  · simp [upload_document, Option.isNone_iff_eq_none]
  · simp [docDataFor]
  · cases hs : store r.slug with
    | none => simp [docDataFor, hs]
    | some d =>
      simp [docDataFor, hs,
        to_firestore_dict_not_field r "created_at" (by decide) (by decide)]

/-- C2 (refuting the claimed retry behaviour): the `try`/`except` inside
`upload_document` converts every store exception — transient ones included —
into a returned `ProcessResult`, so the tenacity decorator never observes a
retryable exception: for every store behaviour the call makes exactly one
attempt and returns that attempt's result.  In particular, with a store that
raises `TooManyRequests` once and would succeed on the second attempt
(K = 1 < 5), the call returns a failed outcome after a single attempt instead
of succeeding after two. -/
theorem upload_retry_dead (script : Nat → Except StoreExc Bool)
    (r : ArtformData) :
    upload_document_with_retry script r
        = (.ok (uploadAttempt (script 0) r), 1)
    ∧ upload_document_with_retry
          (fun n => if n = 0 then .error .tooManyRequests else .ok true)
          (artformBase "a")
        = (.ok { doc_id := "a", success := false,
                 error_message :=
                   some "Failed to upload document 'a': 429 Too Many Requests" },
           1) := by
  exact ⟨rfl, rfl⟩

/-- C5: `is_valid` holds exactly when the whitespace-stripped slug is
non-empty; every record inside every batch that the accumulation loop hands
to `_process_batch` is valid (invalid markers and invalid records never reach
the upload operation); and the loop's skip counter counts exactly the
invalid-marker rows and the invalid records. -/
theorem is_valid_spec (r : ArtformData) (B : Nat)
    (rows : List (Nat × Option ArtformData)) :
    (r.is_valid = true ↔ pyStrip r.slug ≠ "")
    ∧ (∀ b ∈ (upload_artforms B rows).1, ∀ p ∈ b, (Prod.snd p).is_valid = true)
    ∧ (upload_artforms B rows).2
        = rows.countP (fun p =>
            match p.2 with | none => true | some a => !a.is_valid) := by
  refine ⟨?_, ?_, ?_⟩
  · rw [ArtformData.is_valid]
    constructor
    · intro h
      rw [Bool.and_eq_true, Bool.not_eq_true', Bool.not_eq_true'] at h
      intro hs
      rw [← String.isEmpty_iff] at hs
      exact absurd hs (by simp [h.2])
    · intro h
      rw [Bool.and_eq_true, Bool.not_eq_true', Bool.not_eq_true']
      have hslug : ¬ r.slug = "" := by
        intro hs
        exact h (by rw [hs]; rfl)
      constructor
      · rw [← Bool.not_eq_true]
        simpa [String.isEmpty_iff] using hslug
      · rw [← Bool.not_eq_true]
        simpa [String.isEmpty_iff] using h
  · exact upload_go_valid B rows [] (by simp)
  · exact upload_go_skipcount B rows []

/-- Witness for `is_valid_spec`: with batch size 1 and a source holding one
valid record and one invalid marker, the single emitted batch holds only the
valid record, which indeed strips to a non-empty slug. -/
theorem is_valid_spec_witness :
    (artformBase "a").is_valid = true ∧ pyStrip (artformBase "a").slug ≠ "" := by
  have h := is_valid_spec (artformBase "a") 1
    [(2, some (artformBase "a")), (3, none)]
  have hb : [((2 : Nat), artformBase "a")]
      ∈ (upload_artforms 1 [(2, some (artformBase "a")), (3, none)]).1 :=
    List.mem_singleton_self _
  have hp : ((2 : Nat), artformBase "a") ∈ [((2 : Nat), artformBase "a")] :=
    List.mem_singleton_self _
  have hv := h.2.1 _ hb _ hp
  exact ⟨hv, h.1.mp hv⟩


section BatchHelpers

lemma validRows_cons_none (rn : Nat) (rest : List (Nat × Option ArtformData)) :
    validRows ((rn, none) :: rest) = validRows rest := by
  simp [validRows, List.filterMap_cons]

lemma validRows_cons_valid (rn : Nat) (a : ArtformData)
    (rest : List (Nat × Option ArtformData)) (hv : a.is_valid = true) :
    validRows ((rn, some a) :: rest) = (rn, a) :: validRows rest := by
  simp [validRows, List.filterMap_cons, hv]

lemma validRows_cons_invalid (rn : Nat) (a : ArtformData)
    (rest : List (Nat × Option ArtformData)) (hv : a.is_valid = false) :
    validRows ((rn, some a) :: rest) = validRows rest := by
  simp [validRows, List.filterMap_cons, hv]

lemma nat_ceil_div (N B : Nat) (hB : 0 < B) :
    N / B + (if N % B = 0 then 0 else 1) = (N + B - 1) / B := by
  have hq := Nat.div_add_mod N B
  have hmod : N % B < B := Nat.mod_lt _ hB
  by_cases hr : N % B = 0
  · rw [if_pos hr]
    have h1 : N + B - 1 = B * (N / B) + (B - 1) := by omega
    have h2 : (B - 1) / B = 0 := Nat.div_eq_of_lt (by omega)
    rw [h1, Nat.mul_add_div hB, h2]
  · rw [if_neg hr]
    have h1 : N + B - 1 = B * (N / B + 1) + (N % B - 1) := by
      have hm : B * (N / B + 1) = B * (N / B) + B := by ring
      omega
    have h2 : (N % B - 1) / B = 0 := Nat.div_eq_of_lt (by omega)
    rw [h1, Nat.mul_add_div hB, h2]

lemma upload_go_flatten (B : Nat) (rows : List (Nat × Option ArtformData)) :
    ∀ buf, buf.length < B →
      ((upload_artforms_go B rows buf).1).flatten = buf ++ validRows rows := by
  induction rows with
  | nil =>
    intro buf hbuf
    cases buf with
    | nil => simp [upload_artforms_go, validRows]
    | cons x xs => simp [upload_artforms_go, validRows]
  | cons q rest ih =>
    intro buf hbuf
    obtain ⟨rn, oa⟩ := q
    cases oa with
    | none =>
      rw [upload_artforms_go, validRows_cons_none]
      simpa using ih buf hbuf
    | some a =>
      by_cases hv : a.is_valid
      · rw [upload_artforms_go]
        simp only [hv, if_true]
        rw [validRows_cons_valid rn a rest hv]
        by_cases hfull : B ≤ (buf ++ [(rn, a)]).length
        · rw [if_pos hfull]
          have h0 : ([] : List (Nat × ArtformData)).length < B := by
            simp only [List.length_nil]
            omega
          simp only [List.flatten_cons]
          rw [ih [] h0]
          simp [List.append_assoc]
        · rw [if_neg hfull]
          rw [ih (buf ++ [(rn, a)]) (Nat.not_le.mp hfull)]
          simp [List.append_assoc]
      · rw [upload_artforms_go]
        simp only [hv, if_false, Bool.false_eq_true]
        rw [validRows_cons_invalid rn a rest (by simpa using hv)]
        simpa using ih buf hbuf

lemma upload_go_sizes (B : Nat) (rows : List (Nat × Option ArtformData)) :
    ∀ buf, buf.length < B →
      ((upload_artforms_go B rows buf).1.map List.length)
        = List.replicate ((buf.length + (validRows rows).length) / B) B
          ++ (if (buf.length + (validRows rows).length) % B = 0 then []
              else [(buf.length + (validRows rows).length) % B]) := by
  induction rows with
  | nil =>
    intro buf hbuf
    cases buf with
    | nil => simp [upload_artforms_go, validRows]
    | cons x xs =>
      have hne : (x :: xs).length ≠ 0 := by simp
      rw [upload_artforms_go]
      simp only [validRows, List.filterMap_nil, List.length_nil, Nat.add_zero]
      rw [Nat.div_eq_of_lt hbuf, Nat.mod_eq_of_lt hbuf, if_neg hne]
      simp
      exact fun h => List.noConfusion h
  | cons q rest ih =>
    intro buf hbuf
    obtain ⟨rn, oa⟩ := q
    have hpos : 0 < B := Nat.lt_of_le_of_lt (Nat.zero_le _) hbuf
    cases oa with
    | none =>
      rw [upload_artforms_go, validRows_cons_none]
      simpa using ih buf hbuf
    | some a =>
      by_cases hv : a.is_valid
      · rw [upload_artforms_go]
        simp only [hv, if_true]
        rw [validRows_cons_valid rn a rest hv]
        by_cases hfull : B ≤ (buf ++ [(rn, a)]).length
        · rw [if_pos hfull]
          have hlen : buf.length + 1 = B := by
            simp only [List.length_append, List.length_cons, List.length_nil,
              List.length_singleton] at hfull
            omega
          have h0 : ([] : List (Nat × ArtformData)).length < B := by
            simp only [List.length_nil]
            omega
          have e2 : buf.length + ((rn, a) :: validRows rest).length
              = B + (validRows rest).length := by
            simp only [List.length_cons]
            omega
          rw [e2, Nat.add_div_left _ hpos, Nat.add_mod_left]
          simp only [List.map_cons]
          rw [ih [] h0]
          simp only [List.length_nil, Nat.zero_add, List.length_append,
            List.length_singleton, hlen]
          rw [List.replicate_succ, List.cons_append]
        · rw [if_neg hfull]
          rw [ih (buf ++ [(rn, a)]) (Nat.not_le.mp hfull)]
          have e1 : (buf ++ [(rn, a)]).length + (validRows rest).length
              = buf.length + ((rn, a) :: validRows rest).length := by
            simp only [List.length_append, List.length_cons, List.length_nil,
              List.length_singleton]
            omega
          rw [e1]
      · rw [upload_artforms_go]
        simp only [hv, if_false, Bool.false_eq_true]
        rw [validRows_cons_invalid rn a rest (by simpa using hv)]
        simpa using ih buf hbuf

end BatchHelpers

/-- C3: with batch size `B ≥ 1` and any source, the accumulation loop hands
`⌈N / B⌉` batches to `_process_batch`, where `N` is the number of valid
records; their concatenation is exactly the valid records in source encounter
order (so the sizes sum to `N`), every batch except possibly the last has
size exactly `B`, and no batch exceeds `B`. -/
theorem batching_spec (B : Nat) (hB : 1 ≤ B)
    (rows : List (Nat × Option ArtformData)) :
    ((upload_artforms B rows).1).length
        = ((validRows rows).length + B - 1) / B
    ∧ ((upload_artforms B rows).1).flatten = validRows rows
    ∧ (∀ b ∈ ((upload_artforms B rows).1).dropLast, b.length = B)
    ∧ (∀ b ∈ (upload_artforms B rows).1, b.length ≤ B)
    ∧ (((upload_artforms B rows).1).map List.length).sum
        = (validRows rows).length := by
  have hpos : 0 < B := hB
  have h0 : ([] : List (Nat × ArtformData)).length < B := by simpa using hpos
  have hsz := upload_go_sizes B rows [] h0
  simp only [List.length_nil, Nat.zero_add] at hsz
  have hfl := upload_go_flatten B rows [] h0
  simp only [List.nil_append] at hfl
  unfold upload_artforms
  refine ⟨?_, hfl, ?_, ?_, ?_⟩
  · have hlen := congrArg List.length hsz
    simp only [List.length_map, List.length_append, List.length_replicate] at hlen
    rw [hlen, ← nat_ceil_div (validRows rows).length B hpos]
    by_cases hr : (validRows rows).length % B = 0 <;> simp [hr]
  · intro b hb
    have hmem : b.length
        ∈ ((upload_artforms_go B rows []).1.map List.length).dropLast := by
      rw [← List.map_dropLast]
      exact List.mem_map_of_mem _ hb
    rw [hsz] at hmem
    by_cases hr : (validRows rows).length % B = 0
    · rw [if_pos hr, List.append_nil] at hmem
      exact List.eq_of_mem_replicate (List.dropLast_subset _ hmem)
    · rw [if_neg hr, List.dropLast_concat] at hmem
      exact List.eq_of_mem_replicate hmem
  · intro b hb
    have hmem : b.length ∈ (upload_artforms_go B rows []).1.map List.length :=
      List.mem_map_of_mem _ hb
    rw [hsz] at hmem
    by_cases hr : (validRows rows).length % B = 0
    · rw [if_pos hr, List.append_nil] at hmem
      exact le_of_eq (List.eq_of_mem_replicate hmem)
    · rw [if_neg hr] at hmem
      rcases List.mem_append.mp hmem with h | h
      · exact le_of_eq (List.eq_of_mem_replicate h)
      · rw [List.mem_singleton] at h
        rw [h]
        exact le_of_lt (Nat.mod_lt _ hpos)
  · have hf := congrArg List.length hfl
    rw [List.length_flatten] at hf
    exact hf

/-- Witness for `batching_spec`: batch size 2 over three valid records (plus
one invalid marker and one whitespace-slug record). -/
theorem batching_spec_witness :
    1 ≤ 2
    ∧ ((upload_artforms 2 batchSampleRows).1).length
        = ((validRows batchSampleRows).length + 2 - 1) / 2
    ∧ ((upload_artforms 2 batchSampleRows).1).flatten = validRows batchSampleRows :=
  ⟨by norm_num, (batching_spec 2 (by norm_num) batchSampleRows).1,
   (batching_spec 2 (by norm_num) batchSampleRows).2.1⟩

section PartialUpdateHelpers

lemma processColumn_inv (conv : String → String → Value) (acc : ArtformData)
    (hv : String × String)
    (hinv : acc.slug ≠ "" → acc.fieldsToUpdate ≠ []) :
    (processColumn conv acc hv).slug ≠ ""
      → (processColumn conv acc hv).fieldsToUpdate ≠ [] := by
  unfold processColumn
  by_cases ha : hv.1 = ""
  · rw [if_pos ha]
    exact hinv
  rw [if_neg ha]
  by_cases hb : (if hv.2 = "" then "" else pyStrip hv.2) = ""
  · rw [if_pos hb]
    exact hinv
  rw [if_neg hb]
  by_cases hc : hasattrData (pyStrip hv.1) = true
  · rw [if_pos hc]
    intro _
    rw [set_field_value_marks, if_pos hc]
    exact setAdd_ne_nil _ _
  · rw [if_neg hc]
    exact hinv

lemma foldl_processColumn_inv (conv : String → String → Value)
    (row : List (String × String)) :
    ∀ acc : ArtformData, (acc.slug ≠ "" → acc.fieldsToUpdate ≠ []) →
      ((row.foldl (processColumn conv) acc).slug ≠ ""
        → (row.foldl (processColumn conv) acc).fieldsToUpdate ≠ []) := by
  induction row with
  | nil => intro acc h; simpa using h
  | cons hv rest ih =>
    intro acc h
    rw [List.foldl_cons]
    exact ih _ (processColumn_inv conv acc hv h)

end PartialUpdateHelpers

/-- C1: for every record with a non-empty touched-field set (the row builder
hands the pipeline only such records: its result's slug can be non-empty only
after a `set_field_value` call), the document data assembled by
`upload_document` holds exactly the touched non-private data fields plus the
`updated_at`/`created_at` timestamps — never the whole record.  Uploading key
`"a"` first with touched field `name = "X"` and then with touched numeric
field `total_value_sold = 5` leaves the stored document equal to
`{name: "X", total_value_sold: 5}` plus the two timestamps, the first
upload's field never being overwritten. -/
theorem upload_partial_update (r : ArtformData) (isNew : Bool)
    (hto : r.fieldsToUpdate ≠ []) :
    (∀ f v, docDataFor r isNew f = some v →
        f = "updated_at" ∨ f = "created_at"
        ∨ (f ∈ r.fieldsToUpdate ∧ pyStartsUnderscore f = false ∧ v = r.attrs f))
    ∧ (∀ f, f ∈ r.fieldsToUpdate → hasattrData f = true →
        pyStartsUnderscore f = false → f ≠ "updated_at" → f ≠ "created_at" →
        docDataFor r isNew f = some (r.attrs f))
    ∧ docDataFor r isNew "updated_at" = some .timestamp
    ∧ (∀ conv row a, createArtformFromRow conv row = some a →
        a.fieldsToUpdate ≠ [])
    ∧ (∀ f,
        (((upload_document (upload_document emptyStore scenarioRecord1).2
            scenarioRecord2).2 "a").getD (fun _ => none)) f
          = if f = "name" then some (.str "X")
            else if f = "total_value_sold" then some (.float 5)
            else if f = "updated_at" then some .timestamp
            else if f = "created_at" then some .timestamp
            else none) := by
  refine ⟨?_, ?_, ?_, ?_, ?_⟩
  · intro f v h
    by_cases h1 : f = "updated_at"
    · exact Or.inl h1
    by_cases h2 : f = "created_at"
    · exact Or.inr (Or.inl h2)
    refine Or.inr (Or.inr ?_)
    simp only [docDataFor] at h
    rw [if_neg h1, if_neg (fun hc => h2 hc.1)] at h
    unfold ArtformData.to_firestore_dict at h
    rw [if_neg hto] at h
    split at h
    · rename_i hc
      exact ⟨hc.1, by simpa using hc.2.2, (Option.some.inj h).symm⟩
    · exact absurd h (by simp)
  · intro f hmem hattr hstart hnu hnc
    simp only [docDataFor]
    rw [if_neg hnu, if_neg (fun hc => hnc hc.1)]
    unfold ArtformData.to_firestore_dict
    rw [if_neg hto]
    rw [if_pos ⟨hmem, hattr, by simp [hstart]⟩]
  · simp [docDataFor]
  · intro conv row a hsome
    simp only [createArtformFromRow] at hsome
    split at hsome
    · exact absurd hsome (by simp)
    · rename_i hslug
      obtain rfl := Option.some.inj hsome
      exact foldl_processColumn_inv conv row (artformBase "")
        (fun hs => absurd (show (artformBase "").slug = "" by decide) hs) hslug
  · intro f
    by_cases h1 : f = "name"
    · subst h1; decide
    rw [if_neg h1]
    by_cases h2 : f = "total_value_sold"
    · subst h2; decide
    rw [if_neg h2]
    by_cases h3 : f = "updated_at"
    · subst h3; decide
    rw [if_neg h3]
    by_cases h4 : f = "created_at"
    · subst h4; decide
    rw [if_neg h4]
    have hs1 : scenarioRecord1.slug = "a" := by decide
    have hs2 : scenarioRecord2.slug = "a" := by decide
    have hf1 : scenarioRecord1.fieldsToUpdate = ["name"] := by decide
    have hf2 : scenarioRecord2.fieldsToUpdate = ["total_value_sold"] := by decide
    simp [upload_document, storeSet, emptyStore, mergeDoc, docDataFor,
      ArtformData.to_firestore_dict, hs1, hs2, hf1, hf2, h1, h2, h3, h4]

/-- Witness for `upload_partial_update` at the first scenario record, whose
touched-field set is the non-empty `["name"]`. -/
theorem upload_partial_update_witness :
    scenarioRecord1.fieldsToUpdate ≠ []
    ∧ docDataFor scenarioRecord1 true "updated_at" = some .timestamp
    ∧ docDataFor scenarioRecord1 true "name" = some (.str "X") := by
  have h := upload_partial_update scenarioRecord1 true (by decide)
  refine ⟨by decide, h.2.2.1, ?_⟩
  have hn := h.2.1 "name" (by decide) (by decide) (by decide) (by decide) (by decide)
  rw [hn]
  decide
